import Mathlib

/-!
A shallow embedding of the backup engine of `src-tauri/src/ssh_client.rs`:
the progress throttle (`ProgressThrottle`), the size-adaptive per-file
timeout (`calculate_file_timeout`), the error classifier
(`classify_error`), the two directory-listing operations
(`list_remote_directories`, `find_domains`) and the recursive,
cancellable, progress-reporting transfer engine
(`backup_directory_recursive_with_cancel_and_progress`,
`backup_folder_with_cancel_and_progress`, `backup_folder`).

Modelling conventions:
* machine integers (`u64`, `usize`) are `Nat`; Rust's `saturating_sub`
  is `Nat` subtraction, and no modelled value can overflow a `u64`;
* wall-clock time (`tokio::time::Instant`) is an abstract clock
  `clock : Nat -> Nat`, read once per modelled observation point
  (the several `Instant::now()` reads inside one progress emission are
  collapsed into a single read; the byte accounting the claims are
  about never depends on the clock);
* durations are modelled in whole seconds (`Duration::from_secs`);
* the shared `Arc<AtomicBool>` cancellation flag is a stream
  `cancel : Nat -> Bool` giving the value observed by the n-th
  `load(Ordering::Relaxed)`; a poll counter is threaded through;
* fallible code returning `anyhow::Result` is `Except`; the two error
  values the traversal itself constructs (the `anyhow!` calls at its
  cancellation and depth guards) are the inductive `BeErr`, rendered to
  their message strings by `renderErr`;
* I/O the claims do not exercise (session establishment, SFTP reads,
  local file writes, the outer 2-hour and per-file timeouts firing) is
  modelled as succeeding; its observable effects -- emitted progress
  events, created directories, fully written local files -- are
  recorded in an explicit effect state `Eff`;
* the `transfer_speed : Option<f64>` field of `BackupProgress` is a
  floating-point quantity that no control flow reads; it is omitted
  from the event record.
-/

/-- Rust `str::contains` helper: does the second list start the first? -/
def leadsWith : List Char → List Char → Bool
  | [], _ => true
  | _ :: _, [] => false
  | a :: as, b :: bs => a == b && leadsWith as bs

/-- Does `needle` occur as a contiguous sublist of the second argument? -/
def containsSubL (needle : List Char) : List Char → Bool
  | [] => leadsWith needle []
  | c :: t => leadsWith needle (c :: t) || containsSubL needle t

/-- `hay.contains(needle)` of Rust `str::contains` with a string pattern. -/
def containsSub (hay needle : String) : Bool :=
  containsSubL needle.data hay.data

/-- `to_lowercase()`; the classifier's keywords are ASCII, where Rust's
Unicode lowercasing and `Char.toLower` agree. -/
def lowerStr (s : String) : String :=
  ⟨s.data.map Char.toLower⟩

/-- `name_str.starts_with('.')` : the hidden-entry test of the traversal. -/
def startsWithDot (s : String) : Bool :=
  match s.data with
  | [] => false
  | c :: _ => c == '.'

/-- The state of `ProgressThrottle` (ssh_client.rs lines 33-39), times in
seconds of the abstract clock. -/
structure ProgressThrottle where
  last_update : Nat
  last_bytes : Nat
  start_time : Nat
  update_interval : Nat
  byte_threshold : Nat
deriving DecidableEq

/-- `ProgressThrottle::new()` at clock value `now`: 3-second interval,
50 MiB byte threshold, both trackers at the current instant. -/
def ProgressThrottle.new (now : Nat) : ProgressThrottle :=
  { last_update := now
    last_bytes := 0
    start_time := now
    update_interval := 3
    byte_threshold := 50 * 1024 * 1024 }

/-- `ProgressThrottle::should_update` (lines 52-64): true when the update
interval elapsed since the last update or the byte threshold was crossed
since the last update; on true both trackers are reset. Returns the
decision and the updated state. -/
def ProgressThrottle.should_update (t : ProgressThrottle) (now transferred_bytes : Nat) :
    Bool × ProgressThrottle :=
  let time_elapsed := t.update_interval ≤ now - t.last_update
  let bytes_elapsed := t.byte_threshold ≤ transferred_bytes - t.last_bytes
  if time_elapsed ∨ bytes_elapsed then
    (true, { t with last_update := now, last_bytes := transferred_bytes })
  else
    (false, t)

/-- `ProgressThrottle::get_elapsed_seconds` at clock value `now`. -/
def ProgressThrottle.get_elapsed_seconds (t : ProgressThrottle) (now : Nat) : Nat :=
  now - t.start_time

/-- `const MB: u64 = 1024 * 1024;` of `calculate_file_timeout`. -/
def MB : Nat := 1024 * 1024

/-- `const GB: u64 = 1024 * MB;` of `calculate_file_timeout`. -/
def GB : Nat := 1024 * MB

/-- `calculate_file_timeout` (lines 515-528), in seconds. -/
def calculate_file_timeout (file_size : Nat) : Nat :=
  if file_size < 10 * MB then 60
  else if file_size < 100 * MB then 120
  else if file_size < GB then 600
  else 1800

/-- The engine's per-file timeout from a remote stat: `stat.size.unwrap_or(0)`
(line 765) fed to `calculate_file_timeout` (line 768). -/
def fileTimeoutOfStat (statSize : Option Nat) : Nat :=
  calculate_file_timeout (statSize.getD 0)

/-- The authentication-category template of `classify_error` with the
original error text appended. -/
def authMsg (error : String) : String :=
  "🔐 認証エラー: SSH秘密鍵の確認が必要です\n- 秘密鍵のパスが正しいか確認してください\n- 秘密鍵のパーミッションが600または400になっているか確認してください\n- サーバーに公開鍵が正しく登録されているか確認してください\n\n詳細: " ++ error

/-- The network-category template of `classify_error`. -/
def networkMsg (error : String) : String :=
  "🌐 ネットワークエラー: サーバーへの接続に失敗しました\n- インターネット接続を確認してください\n- サーバーのホスト名とポート番号が正しいか確認してください\n- ファイアウォールやVPNの設定を確認してください\n\n詳細: " ++ error

/-- The permission-category template of `classify_error`. -/
def permMsg (error : String) : String :=
  "🚫 権限エラー: ファイルやディレクトリへのアクセスが拒否されました\n- サーバー上のファイル/ディレクトリの権限を確認してください\n- ローカルの保存先ディレクトリの書き込み権限を確認してください\n\n詳細: " ++ error

/-- The disk-capacity-category template of `classify_error`. -/
def diskMsg (error : String) : String :=
  "💾 ディスク容量エラー: ストレージに空き容量がありません\n- ローカルディスクの空き容量を確保してください\n- 不要なファイルを削除するか、別のディスクを選択してください\n\n詳細: " ++ error

/-- The timeout-category template of `classify_error`. -/
def tmoMsg (error : String) : String :=
  "⏱️ タイムアウトエラー: 処理時間が制限を超えました\n- ネットワーク速度が遅い可能性があります\n- 大容量ファイルの場合、時間をおいて再試行してください\n- サーバーの応答が遅い可能性があります\n\n詳細: " ++ error

/-- The filesystem-category template of `classify_error`. -/
def fsysMsg (error : String) : String :=
  "📁 ファイルシステムエラー: ファイルまたはディレクトリが見つかりません\n- 指定したパスが正しいか確認してください\n- サーバー上にファイル/ディレクトリが存在するか確認してください\n\n詳細: " ++ error

/-- The generic fallback of `classify_error` (line 619). -/
def fallbackMsg (error : String) : String :=
  "❌ エラーが発生しました: " ++ error

/-- `classify_error` (lines 539-620): lowercase the rendered message and
take the first matching keyword branch. -/
def classify_error (error : String) : String :=
  let error_str := lowerStr error
  if containsSub error_str "authentication" || containsSub error_str "publickey"
      || containsSub error_str "passphrase"
      || containsSub error_str "permission denied (publickey)" then
    authMsg error
  else if containsSub error_str "connection" || containsSub error_str "timeout"
      || containsSub error_str "dns" || containsSub error_str "network"
      || containsSub error_str "host" then
    networkMsg error
  else if containsSub error_str "permission denied" || containsSub error_str "access denied"
      || containsSub error_str "forbidden" then
    permMsg error
  else if containsSub error_str "no space" || containsSub error_str "disk full"
      || containsSub error_str "quota" then
    diskMsg error
  else if containsSub error_str "timeout" || containsSub error_str "timed out" then
    tmoMsg error
  else if containsSub error_str "no such file" || containsSub error_str "not found"
      || containsSub error_str "invalid path" then
    fsysMsg error
  else
    fallbackMsg error

/-- The diagnostic categories of the Error Classifier (spec 4.6). -/
inductive ErrCategory where
  | auth | network | perm | disk | tmo | fsys | other
deriving DecidableEq

/-- The category `classify_error`'s branch structure assigns: same
conditions, same order, category instead of rendered template. -/
def classifyCategory (error : String) : ErrCategory :=
  let error_str := lowerStr error
  if containsSub error_str "authentication" || containsSub error_str "publickey"
      || containsSub error_str "passphrase"
      || containsSub error_str "permission denied (publickey)" then
    .auth
  else if containsSub error_str "connection" || containsSub error_str "timeout"
      || containsSub error_str "dns" || containsSub error_str "network"
      || containsSub error_str "host" then
    .network
  else if containsSub error_str "permission denied" || containsSub error_str "access denied"
      || containsSub error_str "forbidden" then
    .perm
  else if containsSub error_str "no space" || containsSub error_str "disk full"
      || containsSub error_str "quota" then
    .disk
  else if containsSub error_str "timeout" || containsSub error_str "timed out" then
    .tmo
  else if containsSub error_str "no such file" || containsSub error_str "not found"
      || containsSub error_str "invalid path" then
    .fsys
  else
    .other

/-- The template each category produces. -/
def catTemplate : ErrCategory → String → String
  | .auth, e => authMsg e
  | .network, e => networkMsg e
  | .perm, e => permMsg e
  | .disk, e => diskMsg e
  | .tmo, e => tmoMsg e
  | .fsys, e => fsysMsg e
  | .other, e => fallbackMsg e

/-- Modelled from the spec: the priority-ordered keyword table of 4.6,
"first match wins", Authentication before Network before Permission before
Disk/quota before Timeout before Filesystem/not-found. -/
def categoryOrder : List (ErrCategory × List String) :=
  [(.auth, ["authentication", "publickey", "passphrase", "permission denied (publickey)"]),
   (.network, ["connection", "timeout", "dns", "network", "host"]),
   (.perm, ["permission denied", "access denied", "forbidden"]),
   (.disk, ["no space", "disk full", "quota"]),
   (.tmo, ["timeout", "timed out"]),
   (.fsys, ["no such file", "not found", "invalid path"])]

/-- First category of the table one of whose keywords occurs in `es`. -/
def firstMatchAux (es : String) : List (ErrCategory × List String) → ErrCategory
  | [] => .other
  | (c, kws) :: t => if kws.any (fun k => containsSub es k) then c else firstMatchAux es t

/-- Modelled from the spec: the classifier as 4.6 words it, first match
over the priority-ordered keyword table on the lowercased message. -/
def firstMatchCat (error : String) : ErrCategory :=
  firstMatchAux (lowerStr error) categoryOrder

/-- A remote directory listing as `sftp.readdir` yields it, in server
order: each entry is a file (with its reported `stat.size` and the byte
count a full transfer moves) or a directory with its own listing. -/
inductive Ent where
  | nilE : Ent
  | consFile (name : String) (statSize : Option Nat) (bytes : Nat) (rest : Ent) : Ent
  | consDir (name : String) (sub : Ent) (rest : Ent) : Ent
deriving DecidableEq

/-- `BackupProgress` (lines 22-30) without the observational float field
`transfer_speed` (see the module comment). -/
structure BackupProgress where
  phase : String
  transferred_files : Nat
  total_files : Option Nat
  transferred_bytes : Nat
  current_file : Option String
  elapsed_seconds : Nat
deriving DecidableEq

/-- Builds one `BackupProgress` snapshot (phase, files so far, optional
total, bytes so far, optional current file, elapsed seconds). -/
def mkEvent (phase : String) (tf : Nat) (tot : Option Nat) (tb : Nat)
    (cf : Option String) (el : Nat) : BackupProgress :=
  { phase := phase, transferred_files := tf, total_files := tot,
    transferred_bytes := tb, current_file := cf, elapsed_seconds := el }

/-- The two `anyhow!` errors the traversal itself constructs: the
cancellation outcome (lines 714, 737, 444) and the depth guard (line 719). -/
inductive BeErr where
  | cancelled : BeErr
  | tooDeep (dir : String) : BeErr
deriving DecidableEq

/-- The message of the cancellation `anyhow!`. -/
def cancelMsg : String := "🚫 バックアップがキャンセルされました"

/-- The message of the depth-guard `anyhow!`, naming the directory. -/
def tooDeepMsg (dir : String) : String :=
  "ディレクトリの階層が深すぎます: " ++ dir

/-- The rendered (`to_string`) message of a traversal error. -/
def renderErr : BeErr → String
  | .cancelled => cancelMsg
  | .tooDeep d => tooDeepMsg d

/-- The observable effects of a run: progress events emitted through the
callback, local files fully written (path and byte count), local
directories created, and the next clock-read and cancellation-poll
indices. -/
structure Eff where
  events : List BackupProgress
  writes : List (String × Nat)
  dirs : List String
  k : Nat
  c : Nat
deriving DecidableEq

/-- `Path::join` on the modelled paths. -/
def pjoin (dir name : String) : String := dir ++ "/" ++ name

/-- The prelude of `backup_directory_recursive_with_cancel_and_progress`
(lines 712-728): poll the cancellation flag, check the depth guard,
create the local directory, create the frame's fresh `ProgressThrottle`. -/
def frameEnter (cancel : Nat → Bool) (clock : Nat → Nat)
    (remote_dir local_dir : String) (depth : Nat) (e : Eff) :
    Except (BeErr × Eff) (ProgressThrottle × Eff) :=
  if cancel e.c then
    .error (.cancelled, { e with c := e.c + 1 })
  else
    let e1 : Eff := { e with c := e.c + 1 }
    if depth > 50 then
      .error (.tooDeep remote_dir, e1)
    else
      let e2 : Eff := { e1 with dirs := e1.dirs ++ [local_dir] }
      let thr := ProgressThrottle.new (clock e2.k)
      .ok (thr, { e2 with k := e2.k + 1 })

/-- The entry loop of
`backup_directory_recursive_with_cancel_and_progress` (lines 734-808):
per entry, poll the cancellation flag, skip hidden names, for a file
emit a throttled progress event and transfer it (accumulating the
frame-local `total_files` and `total_transferred_bytes`), for a
directory enter a child frame (the prelude `frameEnter`, then this loop
on its listing at `depth + 1` with fresh counters) and add its file
count. -/
def goEntries (clock : Nat → Nat) (cancel : Nat → Bool) (remote_dir local_dir : String)
    (es : Ent) (depth total_files total_bytes : Nat) (thr : ProgressThrottle)
    (e : Eff) : Except BeErr Nat × Eff :=
  match es with
  | .nilE => (.ok total_files, e)
  | .consFile name statSize bytes rest =>
    if cancel e.c then
      (.error .cancelled, { e with c := e.c + 1 })
    else
      let e1 : Eff := { e with c := e.c + 1 }
      if startsWithDot name then
        goEntries clock cancel remote_dir local_dir rest depth total_files total_bytes thr e1
      else
        let entry_path := pjoin remote_dir name
        let local_entry_path := pjoin local_dir name
        let now := clock e1.k
        let e2 : Eff := { e1 with k := e1.k + 1 }
        let su := thr.should_update now total_bytes
        let e3 : Eff :=
          if su.1 then
            { e2 with events := e2.events ++ [mkEvent "ファイル転送中" total_files none total_bytes (some entry_path) (su.2.get_elapsed_seconds now)] }
          else e2
        let file_size := statSize.getD 0
        let _file_timeout := calculate_file_timeout file_size
        let e4 : Eff := { e3 with writes := e3.writes ++ [(local_entry_path, bytes)] }
        goEntries clock cancel remote_dir local_dir rest depth
          (total_files + 1) (total_bytes + bytes) su.2 e4
  | .consDir name sub rest =>
    if cancel e.c then
      (.error .cancelled, { e with c := e.c + 1 })
    else
      let e1 : Eff := { e with c := e.c + 1 }
      if startsWithDot name then
        goEntries clock cancel remote_dir local_dir rest depth total_files total_bytes thr e1
      else
        let entry_path := pjoin remote_dir name
        let local_entry_path := pjoin local_dir name
        match frameEnter cancel clock entry_path local_entry_path (depth + 1) e1 with
        | .error (m, e2) => (.error m, e2)
        | .ok (thr2, e2) =>
          match goEntries clock cancel entry_path local_entry_path sub (depth + 1) 0 0 thr2 e2 with
          | (.error m, e3) => (.error m, e3)
          | (.ok sub_files, e3) =>
            goEntries clock cancel remote_dir local_dir rest depth
              (total_files + sub_files) total_bytes thr e3

/-- `backup_directory_recursive_with_cancel_and_progress` (lines 699-810):
the frame prelude followed by the entry loop with fresh frame-local
counters. -/
def backup_directory_recursive_with_cancel_and_progress
    (clock : Nat → Nat) (cancel : Nat → Bool)
    (remote_dir local_dir : String) (entries : Ent) (depth : Nat) (e : Eff) :
    Except BeErr Nat × Eff :=
  match frameEnter cancel clock remote_dir local_dir depth e with
  | .error (m, e1) => (.error m, e1)
  | .ok (thr, e1) =>
    goEntries clock cancel remote_dir local_dir entries depth 0 0 thr e1

/-- `backup_folder_with_cancel_and_progress` (lines 354-472) with the
session already established (the lazily connecting branch and its
"SSH接続中" event are skipped) and a remote root that exists and is a
directory with listing `tree`: the setup progress events, the recursive
transfer, the final cancellation check (line 434) distinguishing the
cancelled outcome from the success summary. The 2-hour ceiling and the
error classification applied at line 464 are outside this function;
`classifiedOutcome` applies the latter. -/
def backup_folder_with_cancel_and_progress (clock : Nat → Nat) (cancel : Nat → Bool)
    (remote_path local_path : String) (tree : Ent) : Except BeErr String × Eff :=
  let e0 : Eff := ⟨[], [], [], 0, 0⟩
  let throttle := ProgressThrottle.new (clock e0.k)
  let e1 : Eff := { e0 with k := e0.k + 1 }
  let now1 := clock e1.k
  let e2 : Eff := { e1 with
    k := e1.k + 1,
    events := e1.events ++ [mkEvent "SFTPセッション作成中" 0 none 0 none (throttle.get_elapsed_seconds now1)] }
  let e3 : Eff := { e2 with dirs := e2.dirs ++ [local_path] }
  let now2 := clock e3.k
  let e4 : Eff := { e3 with
    k := e3.k + 1,
    events := e3.events ++ [mkEvent "リモートフォルダ確認中" 0 none 0 (some remote_path) (throttle.get_elapsed_seconds now2)] }
  let now3 := clock e4.k
  let e5 : Eff := { e4 with
    k := e4.k + 1,
    events := e4.events ++ [mkEvent "ファイル転送開始" 0 none 0 none (throttle.get_elapsed_seconds now3)] }
  match backup_directory_recursive_with_cancel_and_progress clock cancel
      remote_path local_path tree 0 e5 with
  | (.error m, e6) => (.error m, e6)
  | (.ok transferred_files, e6) =>
    if cancel e6.c then
      let e7 : Eff := { e6 with c := e6.c + 1 }
      let now4 := clock e7.k
      let e8 : Eff := { e7 with
        k := e7.k + 1,
        events := e7.events ++ [mkEvent "キャンセル完了" transferred_files none 0 none (throttle.get_elapsed_seconds now4)] }
      (.error .cancelled, e8)
    else
      let e7 : Eff := { e6 with c := e6.c + 1 }
      let now4 := clock e7.k
      let e8 : Eff := { e7 with
        k := e7.k + 1,
        events := e7.events ++ [mkEvent "バックアップ完了" transferred_files (some transferred_files) 0 none (throttle.get_elapsed_seconds now4)] }
      (.ok ("✅ バックアップ完了!\n転送ファイル数: " ++ toString transferred_files
        ++ "\nリモート: " ++ remote_path ++ "\nローカル: " ++ local_path), e8)

/-- The `Ok(Err(e)) => classify_error(&e)` arm of the timeout match at
lines 462-464: every internal failure, the cancellation one included, is
rendered and passed through the classifier before reaching the caller. -/
def classifiedOutcome (r : Except BeErr String) : Except String String :=
  match r with
  | .ok m => .ok m
  | .error err => .error (classify_error (renderErr err))

/-- `backup_folder` (lines 322-326): creates a fresh
`Arc::new(AtomicBool::new(false))` that no other party can set, so every
poll of the flag observes `false`; then delegates and classifies. -/
def backup_folder (clock : Nat → Nat) (remote_path local_path : String) (tree : Ent) :
    Except String String × Eff :=
  let r := backup_folder_with_cancel_and_progress clock (fun _ => false)
    remote_path local_path tree
  (classifiedOutcome r.1, r.2)

/-- Insertion step of the model of `Vec::sort` on strings. -/
def insertStr (a : String) : List String → List String
  | [] => [a]
  | b :: t => if a ≤ b then a :: b :: t else b :: insertStr a t

/-- `directories.sort()` / `domains.sort()`. -/
def sortStrings : List String → List String
  | [] => []
  | a :: t => insertStr a (sortStrings t)

/-- `list_remote_directories` (lines 216-263) after the session and SFTP
channel exist, applied to the outcome of `sftp.readdir` on the requested
path: each entry is its rendered path and its `stat.is_dir()` flag. A
readdir failure returns the (empty) accumulated list as a success. -/
def list_remote_directories (rd : Except String (List (String × Bool))) :
    Except String (List String) :=
  match rd with
  | .ok entries =>
    .ok (sortStrings (entries.foldr (fun p acc => if p.2 then p.1 :: acc else acc) []))
  | .error _ => .ok []

/-- `find_domains` (lines 266-320) after the session and SFTP channel
exist, applied to the outcome of `sftp.readdir` on `/home/{username}`:
each entry is its file name and its `stat.is_dir()` flag, and
`has_public_html p` models `sftp.stat(p.join("public_html")).is_ok()`.
A readdir failure is fatal. -/
def find_domains (username : String) (rd : Except String (List (String × Bool)))
    (has_public_html : String → Bool) : Except String (List String) :=
  let home_path := "/home/" ++ username
  match rd with
  | .error err => .error ("ホームディレクトリの探索に失敗しました: " ++ err)
  | .ok entries =>
    .ok (sortStrings (entries.foldr (fun p acc =>
      if p.2 && (containsSub p.1 "." && !(startsWithDot p.1)) then
        (if has_public_html (pjoin home_path p.1)
          then pjoin home_path p.1 ++ "/public_html"
          else pjoin home_path p.1) :: acc
      else acc) []))

/-- The local file writes a fully successful, uncancelled walk of `es`
into `local_dir` performs, in traversal order: every non-hidden file at
its joined local path with its full byte count, hidden entries and
everything below them absent. -/
def visFilesList (local_dir : String) : Ent → List (String × Nat)
  | .nilE => []
  | .consFile name _ bytes rest =>
    if startsWithDot name then visFilesList local_dir rest
    else (pjoin local_dir name, bytes) :: visFilesList local_dir rest
  | .consDir name sub rest =>
    if startsWithDot name then visFilesList local_dir rest
    else visFilesList (pjoin local_dir name) sub ++ visFilesList local_dir rest

/-- A flat listing (files only) from a list of (name, stat size, bytes). -/
def filesEnt : List (String × Option Nat × Nat) → Ent
  | [] => .nilE
  | (n, s, b) :: t => .consFile n s b (filesEnt t)

/-- Concatenation of listings. -/
def entApp : Ent → Ent → Ent
  | .nilE, t => t
  | .consFile n s b r, t => .consFile n s b (entApp r t)
  | .consDir n sub r, t => .consDir n sub (entApp r t)

/-- The bytes the entry loop accumulates while walking a listing: the
sizes of its visible files; hidden files and whole subdirectories
contribute nothing (the recursion at line 794 returns only a file
count, never bytes). -/
def visBytesEnt : Ent → Nat
  | .nilE => 0
  | .consFile n _ b r => (if startsWithDot n then 0 else b) + visBytesEnt r
  | .consDir _ _ r => visBytesEnt r

/-- `ev` is the in-loop progress event the frame with remote path `rdD`
and full listing `esD` emits just before transferring its visible file
`name`, over a frame counter holding `base` extra bytes (0 for a real
frame): its transferred-bytes field equals the byte sum of the frame's
visible files completed before `name` — fully completed files of this
frame only, each counted once, no in-flight bytes, no other frame's
bytes. -/
def inLoopEvt (rdD : String) (esD : Ent) (base : Nat) (ev : BackupProgress) : Prop :=
  ∃ pre name statSize bytes rest,
    esD = entApp pre (Ent.consFile name statSize bytes rest) ∧
    startsWithDot name = false ∧
    ev.phase = "ファイル転送中" ∧
    ev.current_file = some (pjoin rdD name) ∧
    ev.transferred_bytes = base + visBytesEnt pre

/-- The strictly-deeper directory frames reachable from a frame with
remote path `rd` and listing `es`: a subdirectory entry of the listing,
or any frame reachable below one. -/
inductive SubdirFrame : String → Ent → String → Ent → Prop where
  | skipFile (rd name : String) (statSize : Option Nat) (bytes : Nat) (rest : Ent)
      (rdD : String) (esD : Ent) :
      SubdirFrame rd rest rdD esD →
      SubdirFrame rd (Ent.consFile name statSize bytes rest) rdD esD
  | skipDir (rd name : String) (sub rest : Ent) (rdD : String) (esD : Ent) :
      SubdirFrame rd rest rdD esD →
      SubdirFrame rd (Ent.consDir name sub rest) rdD esD
  | enter (rd name : String) (sub rest : Ent) :
      SubdirFrame rd (Ent.consDir name sub rest) (pjoin rd name) sub
  | enterDeep (rd name : String) (sub rest : Ent) (rdD : String) (esD : Ent) :
      SubdirFrame (pjoin rd name) sub rdD esD →
      SubdirFrame rd (Ent.consDir name sub rest) rdD esD

/-- Flatten a frame's event segments: its own in-loop events
interleaved with the contiguous event blocks of its child frames. -/
def flatSegs : List (BackupProgress ⊕ List BackupProgress) → List BackupProgress
  | [] => []
  | .inl ev :: t => ev :: flatSegs t
  | .inr bl :: t => bl ++ flatSegs t

/-- The frame's own in-loop events of a segment list, in order. -/
def ownSegs : List (BackupProgress ⊕ List BackupProgress) → List BackupProgress
  | [] => []
  | .inl ev :: t => ev :: ownSegs t
  | .inr _ :: t => ownSegs t

/-- The effect state after the file branch of the entry loop (lines
751-789) runs on one visible file: the cancellation poll, the throttled
event emission, the full write of the file. -/
def fileStepEff (clock : Nat → Nat) (rd ld name : String) (bytes tf tb : Nat)
    (thr : ProgressThrottle) (e : Eff) : Eff :=
  let e1 : Eff := { e with c := e.c + 1 }
  let now := clock e1.k
  let su := thr.should_update now tb
  let e2 : Eff := { e1 with k := e1.k + 1 }
  let e3 : Eff :=
    if su.1 then
      { e2 with events := e2.events ++
          [mkEvent "ファイル転送中" tf none tb (some (pjoin rd name)) (su.2.get_elapsed_seconds now)] }
    else e2
  { e3 with writes := e3.writes ++ [(pjoin ld name, bytes)] }

/-- The two-file listing of the monotonicity counterexample: a 52 MiB
file followed by a 1-byte file. -/
def c2tree : Ent := filesEnt [("a.bin", some 54525952, 54525952), ("b.txt", some 1, 1)]

/-- The transferred-bytes values of the progress events of one run over
`c2tree` (constant clock, cancellation never requested). -/
def c2bytesTrace : List Nat :=
  ((backup_folder_with_cancel_and_progress (fun _ => 0) (fun _ => false) "/r" "/l" c2tree).2.events).map
    (fun ev => ev.transferred_bytes)

theorem should_update_true_iff (t : ProgressThrottle) (now bytes : Nat) :
    (t.should_update now bytes).1 = true ↔
      (t.update_interval ≤ now - t.last_update ∨ t.byte_threshold ≤ bytes - t.last_bytes) := by
  unfold ProgressThrottle.should_update
  dsimp only
  split
  case isTrue hcond => simpa using hcond
  case isFalse hcond => simpa using hcond

theorem should_update_reset (t : ProgressThrottle) (now bytes : Nat)
    (h : (t.should_update now bytes).1 = true) :
    (t.should_update now bytes).2 = { t with last_update := now, last_bytes := bytes } := by
  unfold ProgressThrottle.should_update at *
  dsimp only at *
  split at h
  case isTrue hcond => rw [if_pos hcond]
  case isFalse hcond => simp at h

theorem should_update_skip (t : ProgressThrottle) (now bytes : Nat)
    (h : (t.should_update now bytes).1 = false) :
    (t.should_update now bytes).2 = t := by
  unfold ProgressThrottle.should_update at *
  dsimp only at *
  split at h
  case isTrue hcond => simp at h
  case isFalse hcond => rw [if_neg hcond]

/-- C4: `calculate_file_timeout` returns 60 s below 10 MiB, 120 s from
10 MiB up to but excluding 100 MiB, 600 s from 100 MiB up to but
excluding 1 GiB, 1800 s from 1 GiB; the seven sample sizes map to
60/120/120/600/600/1800/1800 s; and a remote entry reporting no size is
treated as size 0 (`stat.size.unwrap_or(0)`), hence the 60-second tier. -/
theorem C4_calculate_file_timeout_tiers :
    (∀ sz : Nat, sz < 10 * MB → calculate_file_timeout sz = 60) ∧
    (∀ sz : Nat, 10 * MB ≤ sz → sz < 100 * MB → calculate_file_timeout sz = 120) ∧
    (∀ sz : Nat, 100 * MB ≤ sz → sz < GB → calculate_file_timeout sz = 600) ∧
    (∀ sz : Nat, GB ≤ sz → calculate_file_timeout sz = 1800) ∧
    calculate_file_timeout (9 * MB) = 60 ∧
    calculate_file_timeout (10 * MB) = 120 ∧
    calculate_file_timeout (99 * MB) = 120 ∧
    calculate_file_timeout (100 * MB) = 600 ∧
    calculate_file_timeout (999 * MB) = 600 ∧
    calculate_file_timeout GB = 1800 ∧
    calculate_file_timeout (5 * GB) = 1800 ∧
    fileTimeoutOfStat none = 60 := by
  refine ⟨?_, ?_, ?_, ?_, by decide, by decide, by decide, by decide, by decide,
    by decide, by decide, by decide⟩ <;>
  · intro sz
    intros
    simp only [calculate_file_timeout, MB, GB] at *
    repeat' split
    all_goals omega

theorem C4_calculate_file_timeout_tiers_witness :
    GB ≤ 5 * GB ∧ calculate_file_timeout (5 * GB) = 1800 :=
  ⟨by decide, C4_calculate_file_timeout_tiers.2.2.2.1 (5 * GB) (by decide)⟩

/-- C5: `should_update` returns true exactly when the 3-second interval
elapsed since the last reset or 50 MiB accrued since the last reset; a
true result resets both trackers to the current time and byte count and
a false result leaves the state unchanged; hence two true results
within less than 3 seconds force a 50 MiB byte delta, and a 50 MiB
delta forces a true result regardless of elapsed time. `new` starts
both trackers at the creation instant with the 3 s / 50 MiB constants. -/
theorem C5_should_update_contract :
    (∀ t0 : Nat, (ProgressThrottle.new t0).update_interval = 3 ∧
      (ProgressThrottle.new t0).byte_threshold = 50 * 1024 * 1024 ∧
      (ProgressThrottle.new t0).last_update = t0 ∧
      (ProgressThrottle.new t0).last_bytes = 0) ∧
    (∀ (t : ProgressThrottle) (now bytes : Nat),
      ((t.should_update now bytes).1 = true ↔
        (t.update_interval ≤ now - t.last_update ∨ t.byte_threshold ≤ bytes - t.last_bytes)) ∧
      ((t.should_update now bytes).1 = true →
        (t.should_update now bytes).2 = { t with last_update := now, last_bytes := bytes }) ∧
      ((t.should_update now bytes).1 = false → (t.should_update now bytes).2 = t)) ∧
    (∀ (t : ProgressThrottle) (n1 b1 n2 b2 : Nat),
      t.update_interval = 3 → t.byte_threshold = 50 * 1024 * 1024 →
      (t.should_update n1 b1).1 = true →
      ((t.should_update n1 b1).2.should_update n2 b2).1 = true →
      n2 - n1 < 3 → 50 * 1024 * 1024 ≤ b2 - b1) ∧
    (∀ (t : ProgressThrottle) (now bytes : Nat),
      t.byte_threshold ≤ bytes - t.last_bytes → (t.should_update now bytes).1 = true) := by
  refine ⟨fun t0 => ⟨rfl, rfl, rfl, rfl⟩,
    fun t now bytes => ⟨should_update_true_iff t now bytes,
      should_update_reset t now bytes, should_update_skip t now bytes⟩,
    ?_, ?_⟩
  · intro t n1 b1 n2 b2 hi hb h1 h2 hlt
    rw [should_update_reset t n1 b1 h1] at h2
    rcases (should_update_true_iff _ n2 b2).mp h2 with h | h
    · simp only at h; omega
    · simp only at h; omega
  · intro t now bytes h
    exact (should_update_true_iff t now bytes).mpr (Or.inr h)

theorem C5_should_update_contract_witness :
    (ProgressThrottle.new 0).byte_threshold ≤ 52428800 - (ProgressThrottle.new 0).last_bytes ∧
    ((ProgressThrottle.new 0).should_update 1 52428800).1 = true :=
  ⟨by decide, C5_should_update_contract.2.2.2 (ProgressThrottle.new 0) 1 52428800 (by decide)⟩

/-- C9: a `readdir` failure while browsing (`list_remote_directories`)
yields a successful empty listing, while the same failure during the
home-directory domain scan (`find_domains`) is fatal, carrying the
scan's error message. -/
theorem C9_listing_failure_semantics :
    (∀ err : String, list_remote_directories (Except.error err) = Except.ok []) ∧
    (∀ (username err : String) (hp : String → Bool),
      find_domains username (Except.error err) hp =
        Except.error ("ホームディレクトリの探索に失敗しました: " ++ err)) :=
  ⟨fun _ => rfl, fun _ _ _ => rfl⟩

theorem classify_error_eq_template (s : String) :
    classify_error s = catTemplate (classifyCategory s) s := by
  unfold classify_error classifyCategory
  dsimp only
  repeat' split <;> simp_all [catTemplate]

theorem classifyCategory_eq_firstMatch (s : String) :
    classifyCategory s = firstMatchCat s := by
  unfold classifyCategory firstMatchCat
  simp only [categoryOrder, firstMatchAux, List.any_cons, List.any_nil,
    Bool.or_false, Bool.or_assoc]

/-- C3: the classifier maps the lowercased rendered message to exactly
one category by first match in the priority order Authentication,
Network, Permission, Disk, Timeout, Filesystem, Fallback, rendering the
matched category's template with the original text appended; in
particular a message containing both "timeout" and "authentication"
(case-insensitively) is classified Authentication, not Timeout. -/
theorem C3_classifier_priority :
    (∀ s, classify_error s = catTemplate (classifyCategory s) s) ∧
    (∀ s, classifyCategory s = firstMatchCat s) ∧
    (∀ s, containsSub (lowerStr s) "timeout" = true →
      containsSub (lowerStr s) "authentication" = true →
      classifyCategory s = ErrCategory.auth ∧ classify_error s = authMsg s) := by
  refine ⟨classify_error_eq_template, classifyCategory_eq_firstMatch, ?_⟩
  intro s _ h2
  constructor
  · unfold classifyCategory
    dsimp only
    rw [if_pos]
    simp [h2]
  · unfold classify_error
    dsimp only
    rw [if_pos]
    simp [h2]

theorem C3_classifier_priority_witness :
    containsSub (lowerStr "Authentication timeout") "timeout" = true ∧
    containsSub (lowerStr "Authentication timeout") "authentication" = true ∧
    classifyCategory "Authentication timeout" = ErrCategory.auth :=
  ⟨by decide, by decide,
    (C3_classifier_priority.2.2 "Authentication timeout" (by decide) (by decide)).1⟩

/-- C6: a frame entered at recursion depth strictly greater than 50 with
the cancellation flag observed unset fails with the too-deep error
naming the offending remote directory (so the traversal never silently
truncates there and never returns a success for that call). -/
theorem C6_recursion_too_deep (clock : Nat → Nat) (cancel : Nat → Bool)
    (remote_dir local_dir : String) (entries : Ent) (depth : Nat) (e : Eff)
    (hc : cancel e.c = false) (hd : 50 < depth) :
    backup_directory_recursive_with_cancel_and_progress clock cancel
        remote_dir local_dir entries depth e
      = (Except.error (BeErr.tooDeep remote_dir), { e with c := e.c + 1 }) ∧
    renderErr (BeErr.tooDeep remote_dir) = "ディレクトリの階層が深すぎます: " ++ remote_dir := by
  refine ⟨?_, rfl⟩
  unfold backup_directory_recursive_with_cancel_and_progress frameEnter
  simp [hc, hd]

theorem C6_recursion_too_deep_witness :
    ((fun _ => false : Nat → Bool) 0 = false) ∧ 50 < 51 ∧
    backup_directory_recursive_with_cancel_and_progress (fun _ => 0) (fun _ => false)
        "/r" "/l" Ent.nilE 51 ⟨[], [], [], 0, 0⟩
      = (Except.error (BeErr.tooDeep "/r"), ⟨[], [], [], 0, 1⟩) :=
  ⟨rfl, by omega,
    (C6_recursion_too_deep (fun _ => 0) (fun _ => false) "/r" "/l" Ent.nilE 51
      ⟨[], [], [], 0, 0⟩ rfl (by omega)).1⟩

/-- C7: an entry whose name begins with a dot is skipped by the entry
loop at any depth: the walk of a listing starting with a hidden file or
a hidden directory (its whole subtree included) equals the walk of the
listing without it, after the one cancellation poll of that iteration,
so the hidden entry contributes nothing to the local mirror, the
transferred-file count, the bytes, or the events; likewise the
successful-run write list `visFilesList` excludes it. -/
theorem C7_hidden_entries_skipped (clock : Nat → Nat) (cancel : Nat → Bool)
    (remote_dir local_dir name : String) (statSize : Option Nat) (bytes : Nat)
    (sub rest : Ent) (depth total_files total_bytes : Nat)
    (thr : ProgressThrottle) (e : Eff)
    (hc : cancel e.c = false) (hh : startsWithDot name = true) :
    goEntries clock cancel remote_dir local_dir (Ent.consFile name statSize bytes rest)
        depth total_files total_bytes thr e
      = goEntries clock cancel remote_dir local_dir rest
          depth total_files total_bytes thr { e with c := e.c + 1 } ∧
    goEntries clock cancel remote_dir local_dir (Ent.consDir name sub rest)
        depth total_files total_bytes thr e
      = goEntries clock cancel remote_dir local_dir rest
          depth total_files total_bytes thr { e with c := e.c + 1 } ∧
    visFilesList local_dir (Ent.consFile name statSize bytes rest)
      = visFilesList local_dir rest ∧
    visFilesList local_dir (Ent.consDir name sub rest)
      = visFilesList local_dir rest := by
  refine ⟨?_, ?_, ?_, ?_⟩
  · conv_lhs => rw [goEntries]
    simp [hc, hh]
  · conv_lhs => rw [goEntries]
    simp [hc, hh]
  · rw [visFilesList, if_pos hh]
  · rw [visFilesList, if_pos hh]

theorem C7_hidden_entries_skipped_witness :
    ((fun _ => false : Nat → Bool) 0 = false) ∧ startsWithDot ".x" = true ∧
    goEntries (fun _ => 0) (fun _ => false) "/r" "/l" (Ent.consFile ".x" none 3 Ent.nilE)
        0 0 0 (ProgressThrottle.new 0) ⟨[], [], [], 0, 0⟩
      = goEntries (fun _ => 0) (fun _ => false) "/r" "/l" Ent.nilE
          0 0 0 (ProgressThrottle.new 0) ⟨[], [], [], 0, 1⟩ :=
  ⟨rfl, by decide,
    (C7_hidden_entries_skipped (fun _ => 0) (fun _ => false) "/r" "/l" ".x" none 3
      Ent.nilE Ent.nilE 0 0 0 (ProgressThrottle.new 0) ⟨[], [], [], 0, 0⟩ rfl (by decide)).1⟩

/-- C1 fails on the code: a run that observes the cancellation signal
set IS passed through `classify_error` (the `Ok(Err(e))` arm at line
464), and since its message matches no keyword, the caller receives the
classifier's generic fallback wrapping, not the bare cancellation
message. -/
theorem C1_cancel_classified_counterexample :
    classifiedOutcome (backup_folder_with_cancel_and_progress (fun _ => 0) (fun _ => true)
        "/r" "/l" Ent.nilE).1
      = Except.error (fallbackMsg cancelMsg) ∧
    classifyCategory cancelMsg = ErrCategory.other ∧
    fallbackMsg cancelMsg ≠ cancelMsg := by
  refine ⟨rfl, by decide, by decide⟩

/-- C1 amended: every invocation whose internal outcome is the
cancellation error delivers, after the classifier pass every failure
takes, the generic fallback category wrapping the distinguished
cancellation message — never one of the specific diagnostic
categories, whose keyword sets the cancellation message matches not. -/
theorem C1_cancelled_delivered_as_fallback (clock : Nat → Nat) (cancel : Nat → Bool)
    (remote_path local_path : String) (tree : Ent)
    (h : (backup_folder_with_cancel_and_progress clock cancel remote_path local_path tree).1
          = Except.error BeErr.cancelled) :
    classifiedOutcome (backup_folder_with_cancel_and_progress clock cancel
        remote_path local_path tree).1
      = Except.error (fallbackMsg cancelMsg) ∧
    classifyCategory cancelMsg = ErrCategory.other := by
  rw [h]
  exact ⟨rfl, by decide⟩

theorem C1_cancelled_delivered_as_fallback_witness :
    (backup_folder_with_cancel_and_progress (fun _ => 0) (fun _ => true)
        "/a" "/b" Ent.nilE).1 = Except.error BeErr.cancelled ∧
    classifiedOutcome (backup_folder_with_cancel_and_progress (fun _ => 0) (fun _ => true)
        "/a" "/b" Ent.nilE).1 = Except.error (fallbackMsg cancelMsg) :=
  ⟨rfl, (C1_cancelled_delivered_as_fallback (fun _ => 0) (fun _ => true) "/a" "/b"
    Ent.nilE rfl).1⟩

theorem goEntries_no_cancel (clock : Nat → Nat) (cancel : Nat → Bool)
    (hc : ∀ i, cancel i = false) :
    ∀ (es : Ent) (rd ld : String) (depth tf tb : Nat) (thr : ProgressThrottle) (e : Eff),
      (goEntries clock cancel rd ld es depth tf tb thr e).1 ≠ Except.error BeErr.cancelled := by
  intro es
  induction es with
  | nilE =>
    intro rd ld depth tf tb thr e
    simp [goEntries]
  | consFile name statSize bytes rest ih =>
    intro rd ld depth tf tb thr e
    rw [goEntries]
    simp only [hc, Bool.false_eq_true, if_false]
    split
    · exact ih rd ld depth tf tb thr _
    · exact ih rd ld depth (tf + 1) (tb + bytes) _ _
  | consDir name sub rest ihsub ihrest =>
    intro rd ld depth tf tb thr e
    rw [goEntries]
    simp only [hc, Bool.false_eq_true, if_false]
    split
    · exact ihrest rd ld depth tf tb thr _
    · unfold frameEnter
      simp only [hc, Bool.false_eq_true, if_false]
      split
      · next m e2 heq =>
        split at heq
        · simp only [Except.error.injEq, Prod.mk.injEq] at heq
          simp [← heq.1]
        · simp at heq
      · next thr2 e2 heq =>
        split
        · next m e3 heq2 =>
          intro hcon
          exact ihsub (pjoin rd name) (pjoin ld name) (depth + 1) 0 0 thr2 e2
            (by rw [heq2]; simpa using hcon)
        · next n e3 heq2 =>
          exact ihrest rd ld depth (tf + n) tb thr _

theorem bdr_no_cancel (clock : Nat → Nat) (cancel : Nat → Bool)
    (hc : ∀ i, cancel i = false) (rd ld : String) (es : Ent) (depth : Nat) (e : Eff) :
    (backup_directory_recursive_with_cancel_and_progress clock cancel rd ld es depth e).1
      ≠ Except.error BeErr.cancelled := by
  unfold backup_directory_recursive_with_cancel_and_progress frameEnter
  simp only [hc, Bool.false_eq_true, if_false]
  split
  · next m e2 heq =>
    split at heq
    · simp only [Except.error.injEq, Prod.mk.injEq] at heq
      simp [← heq.1]
    · simp at heq
  · next thr2 e2 heq =>
    exact goEntries_no_cancel clock cancel hc es rd ld depth 0 0 thr2 e2

/-- C10: `backup_folder` hands the engine a fresh cancellation flag
initialized to false that no other party can set, so every poll
observes false and the cancellation outcome is unreachable: the
delegated run never produces the cancelled error, and `backup_folder`
is exactly that run followed by the classifier pass. -/
theorem C10_backup_folder_never_cancelled (clock : Nat → Nat)
    (remote_path local_path : String) (tree : Ent) :
    (backup_folder_with_cancel_and_progress clock (fun _ => false)
        remote_path local_path tree).1 ≠ Except.error BeErr.cancelled ∧
    (backup_folder clock remote_path local_path tree).1
      = classifiedOutcome (backup_folder_with_cancel_and_progress clock (fun _ => false)
          remote_path local_path tree).1 := by
  refine ⟨?_, rfl⟩
  unfold backup_folder_with_cancel_and_progress
  dsimp only
  split
  · next m e6 heq =>
    intro hcon
    exact bdr_no_cancel clock (fun _ => false) (fun _ => rfl) remote_path local_path tree 0 _
      (by rw [heq]; simpa using hcon)
  · next tf e6 heq =>
    simp

theorem goEntries_consFile_vis (clock : Nat → Nat) (cancel : Nat → Bool)
    (rd ld name : String) (statSize : Option Nat) (bytes : Nat) (rest : Ent)
    (depth tf tb : Nat) (thr : ProgressThrottle) (e : Eff)
    (hc : cancel e.c = false) (hh : startsWithDot name = false) :
    goEntries clock cancel rd ld (Ent.consFile name statSize bytes rest) depth tf tb thr e
      = goEntries clock cancel rd ld rest depth (tf + 1) (tb + bytes)
          (thr.should_update (clock e.k) tb).2
          (fileStepEff clock rd ld name bytes tf tb thr e) := by
  conv_lhs => rw [goEntries]
  simp only [hc, hh, Bool.false_eq_true, if_false]
  rfl

theorem fileStepEff_writes (clock : Nat → Nat) (rd ld name : String)
    (bytes tf tb : Nat) (thr : ProgressThrottle) (e : Eff) :
    (fileStepEff clock rd ld name bytes tf tb thr e).writes
      = e.writes ++ [(pjoin ld name, bytes)] := by
  unfold fileStepEff
  dsimp only
  split <;> rfl

theorem fileStepEff_events (clock : Nat → Nat) (rd ld name : String)
    (bytes tf tb : Nat) (thr : ProgressThrottle) (e : Eff) :
    (fileStepEff clock rd ld name bytes tf tb thr e).events
      = e.events ++
        (if (thr.should_update (clock e.k) tb).1 then
          [mkEvent "ファイル転送中" tf none tb (some (pjoin rd name))
            ((thr.should_update (clock e.k) tb).2.get_elapsed_seconds (clock e.k))]
        else []) := by
  unfold fileStepEff
  dsimp only
  split <;> simp

theorem goEntries_writes (clock : Nat → Nat) (cancel : Nat → Bool) :
    ∀ (es : Ent) (rd ld : String) (depth tf tb : Nat) (thr : ProgressThrottle) (e : Eff),
      ∃ l suf,
        (goEntries clock cancel rd ld es depth tf tb thr e).2.writes = e.writes ++ l ∧
        visFilesList ld es = l ++ suf ∧
        (∀ n, (goEntries clock cancel rd ld es depth tf tb thr e).1 = Except.ok n →
          suf = []) := by
  intro es
  induction es with
  | nilE =>
    intro rd ld depth tf tb thr e
    exact ⟨[], [], by simp [goEntries], by simp [visFilesList], fun n _ => rfl⟩
  | consFile name statSize bytes rest ih =>
    intro rd ld depth tf tb thr e
    by_cases hc : cancel e.c = true
    · refine ⟨[], visFilesList ld (Ent.consFile name statSize bytes rest), ?_, by simp, ?_⟩
      · rw [goEntries]
        simp [hc]
      · intro n h
        rw [goEntries] at h
        simp [hc] at h
    · rw [Bool.not_eq_true] at hc
      by_cases hh : startsWithDot name = true
      · obtain ⟨l, suf, h1, h2, h3⟩ := ih rd ld depth tf tb thr { e with c := e.c + 1 }
        refine ⟨l, suf, ?_, ?_, ?_⟩
        · conv_lhs => rw [goEntries]
          simpa [hc, hh] using h1
        · rw [visFilesList, if_pos hh]
          exact h2
        · intro n h
          apply h3 n
          rw [goEntries] at h
          simpa [hc, hh] using h
      · rw [Bool.not_eq_true] at hh
        obtain ⟨l, suf, h1, h2, h3⟩ := ih rd ld depth (tf + 1) (tb + bytes)
          ((thr.should_update (clock e.k) tb).2)
          (fileStepEff clock rd ld name bytes tf tb thr e)
        rw [fileStepEff_writes] at h1
        refine ⟨(pjoin ld name, bytes) :: l, suf, ?_, ?_, ?_⟩
        · rw [goEntries_consFile_vis clock cancel rd ld name statSize bytes rest depth
            tf tb thr e hc hh, h1]
          simp
        · rw [visFilesList, if_neg (by simp [hh])]
          simp [h2]
        · intro n h
          apply h3 n
          rw [goEntries_consFile_vis clock cancel rd ld name statSize bytes rest depth
            tf tb thr e hc hh] at h
          exact h
  | consDir name sub rest ihsub ihrest =>
    intro rd ld depth tf tb thr e
    by_cases hc : cancel e.c = true
    · refine ⟨[], visFilesList ld (Ent.consDir name sub rest), ?_, by simp, ?_⟩
      · rw [goEntries]
        simp [hc]
      · intro n h
        rw [goEntries] at h
        simp [hc] at h
    · rw [Bool.not_eq_true] at hc
      by_cases hh : startsWithDot name = true
      · obtain ⟨l, suf, h1, h2, h3⟩ := ihrest rd ld depth tf tb thr { e with c := e.c + 1 }
        refine ⟨l, suf, ?_, ?_, ?_⟩
        · conv_lhs => rw [goEntries]
          simpa [hc, hh] using h1
        · rw [visFilesList, if_pos hh]
          exact h2
        · intro n h
          apply h3 n
          rw [goEntries] at h
          simpa [hc, hh] using h
      · rw [Bool.not_eq_true] at hh
        rw [goEntries]
        simp only [hc, hh, Bool.false_eq_true, if_false]
        unfold frameEnter
        dsimp only
        by_cases hc2 : cancel (e.c + 1) = true
        · rw [if_pos hc2]
          refine ⟨[], visFilesList ld (Ent.consDir name sub rest), by simp, by simp, ?_⟩
          intro n h
          simp at h
        · rw [if_neg hc2]
          by_cases hd : depth + 1 > 50
          · rw [if_pos hd]
            refine ⟨[], visFilesList ld (Ent.consDir name sub rest), by simp, by simp, ?_⟩
            intro n h
            simp at h
          · rw [if_neg hd]
            dsimp only
            obtain ⟨lsub, sufsub, hs1, hs2, hs3⟩ := ihsub (pjoin rd name) (pjoin ld name)
              (depth + 1) 0 0 (ProgressThrottle.new (clock e.k))
              ⟨e.events, e.writes, e.dirs ++ [pjoin ld name], e.k + 1, e.c + 1 + 1⟩
            split
            · next m e3 heq2 =>
              rw [heq2] at hs1
              refine ⟨lsub, sufsub ++ visFilesList ld rest, ?_, ?_, ?_⟩
              · simpa using hs1
              · rw [visFilesList, if_neg (by simp [hh]), hs2]
                simp
              · intro n h
                simp at h
            · next n0 e3 heq2 =>
              rw [heq2] at hs1 hs3
              have hsub0 : sufsub = [] := hs3 n0 rfl
              obtain ⟨lr, sufr, hr1, hr2, hr3⟩ := ihrest rd ld depth (tf + n0) tb thr e3
              refine ⟨lsub ++ lr, sufr, ?_, ?_, ?_⟩
              · rw [hr1]
                simp only at hs1
                rw [hs1]
                simp
              · rw [visFilesList, if_neg (by simp [hh]), hs2, hsub0, hr2]
                simp
              · intro n h
                exact hr3 n h

theorem bdr_writes (clock : Nat → Nat) (cancel : Nat → Bool)
    (rd ld : String) (es : Ent) (depth : Nat) (e : Eff) :
    ∃ l suf,
      (backup_directory_recursive_with_cancel_and_progress clock cancel rd ld es depth e).2.writes
        = e.writes ++ l ∧
      visFilesList ld es = l ++ suf ∧
      (∀ n, (backup_directory_recursive_with_cancel_and_progress clock cancel
          rd ld es depth e).1 = Except.ok n → suf = []) := by
  unfold backup_directory_recursive_with_cancel_and_progress frameEnter
  dsimp only
  by_cases hc : cancel e.c = true
  · rw [if_pos hc]
    exact ⟨[], visFilesList ld es, by simp, by simp, fun n h => by simp at h⟩
  · rw [if_neg hc]
    by_cases hd : depth > 50
    · rw [if_pos hd]
      exact ⟨[], visFilesList ld es, by simp, by simp, fun n h => by simp at h⟩
    · rw [if_neg hd]
      dsimp only
      exact goEntries_writes clock cancel es rd ld depth 0 0
        (ProgressThrottle.new (clock e.k))
        ⟨e.events, e.writes, e.dirs ++ [ld], e.k + 1, e.c + 1⟩

theorem bdr_writes_res (clock : Nat → Nat) (cancel : Nat → Bool)
    (rd ld : String) (es : Ent) (depth : Nat) (e : Eff)
    (res : Except BeErr Nat × Eff)
    (hres : backup_directory_recursive_with_cancel_and_progress clock cancel rd ld es depth e
      = res) :
    ∃ l suf,
      res.2.writes = e.writes ++ l ∧
      visFilesList ld es = l ++ suf ∧
      (∀ n, res.1 = Except.ok n → suf = []) := by
  subst hres
  exact bdr_writes clock cancel rd ld es depth e

/-- C8: the cancellation signal is polled at frame entry (start of each
directory's entry loop) and again at the top of every iteration, hence
before each file transfer, and a set flag immediately yields the
cancelled error; a signal set before the run starts ends the invocation
cancelled with no file written; and for any signal stream the files on
local disk are always a prefix of the visible files of the remote tree
(full copies, none counted or written twice), the whole list exactly
when the walk succeeded. -/
theorem C8_cancellation_checkpoints :
    (∀ (clock : Nat → Nat) (cancel : Nat → Bool) (rd ld name : String)
      (statSize : Option Nat) (bytes : Nat) (sub rest : Ent)
      (depth tf tb : Nat) (thr : ProgressThrottle) (e : Eff),
      cancel e.c = true →
      goEntries clock cancel rd ld (Ent.consFile name statSize bytes rest)
          depth tf tb thr e
        = (Except.error BeErr.cancelled, { e with c := e.c + 1 }) ∧
      goEntries clock cancel rd ld (Ent.consDir name sub rest)
          depth tf tb thr e
        = (Except.error BeErr.cancelled, { e with c := e.c + 1 }) ∧
      backup_directory_recursive_with_cancel_and_progress clock cancel rd ld rest depth e
        = (Except.error BeErr.cancelled, { e with c := e.c + 1 })) ∧
    (∀ (clock : Nat → Nat) (rp lp : String) (tree : Ent),
      (backup_folder_with_cancel_and_progress clock (fun _ => true) rp lp tree).1
        = Except.error BeErr.cancelled ∧
      (backup_folder_with_cancel_and_progress clock (fun _ => true) rp lp tree).2.writes
        = []) ∧
    (∀ (clock : Nat → Nat) (cancel : Nat → Bool) (rp lp : String) (tree : Ent),
      ∃ l suf,
        (backup_folder_with_cancel_and_progress clock cancel rp lp tree).2.writes = l ∧
        visFilesList lp tree = l ++ suf ∧
        (∀ m, (backup_folder_with_cancel_and_progress clock cancel rp lp tree).1
          = Except.ok m → suf = [])) := by
  refine ⟨?_, ?_, ?_⟩
  · intro clock cancel rd ld name statSize bytes sub rest depth tf tb thr e hc
    refine ⟨?_, ?_, ?_⟩
    · rw [goEntries]
      simp [hc]
    · rw [goEntries]
      simp [hc]
    · unfold backup_directory_recursive_with_cancel_and_progress frameEnter
      simp [hc]
  · intro clock rp lp tree
    exact ⟨rfl, rfl⟩
  · intro clock cancel rp lp tree
    unfold backup_folder_with_cancel_and_progress
    dsimp only
    split
    · next m e6 heq =>
      obtain ⟨l, suf, h1, h2, h3⟩ := bdr_writes_res clock cancel rp lp tree 0 _ _ heq
      refine ⟨l, suf, ?_, h2, ?_⟩
      · rw [h1]
        rfl
      · intro n h
        simp at h
    · next tf e6 heq =>
      obtain ⟨l, suf, h1, h2, h3⟩ := bdr_writes_res clock cancel rp lp tree 0 _ _ heq
      by_cases hc6 : cancel e6.c = true
      · rw [if_pos hc6]
        refine ⟨l, suf, ?_, h2, ?_⟩
        · simpa using h1
        · intro m h
          simp at h
      · rw [if_neg hc6]
        refine ⟨l, suf, ?_, h2, fun m _ => h3 tf rfl⟩
        · simpa using h1

theorem C8_cancellation_checkpoints_witness :
    ((fun _ => true : Nat → Bool) 0 = true) ∧
    goEntries (fun _ => 0) (fun _ => true) "/r" "/l" (Ent.consFile "x" none 1 Ent.nilE)
        0 0 0 (ProgressThrottle.new 0) ⟨[], [], [], 0, 0⟩
      = (Except.error BeErr.cancelled, ⟨[], [], [], 0, 1⟩) :=
  ⟨rfl,
    (C8_cancellation_checkpoints.1 (fun _ => 0) (fun _ => true) "/r" "/l" "x" none 1
      Ent.nilE Ent.nilE 0 0 0 (ProgressThrottle.new 0) ⟨[], [], [], 0, 0⟩ rfl).1⟩

/-- C2 fails on the code as a whole-invocation property: over a root
listing of a 52 MiB file then a 1-byte file, the emitted
transferred-bytes sequence is 0, 0, 0, 52 MiB, 0 — the final
completion event reports zero bytes — so the sequence is not
monotonically non-decreasing. -/
theorem C2_monotonicity_counterexample :
    c2bytesTrace = [0, 0, 0, 54525952, 0] ∧
    ¬ List.Chain' (fun a b => a ≤ b) c2bytesTrace := by
  have h : c2bytesTrace = [0, 0, 0, 54525952, 0] := by decide
  refine ⟨h, ?_⟩
  rw [h]
  simp only [List.chain'_cons, List.chain'_singleton]
  omega

theorem entApp_assoc (a b c : Ent) : entApp (entApp a b) c = entApp a (entApp b c) := by
  induction a with
  | nilE => rfl
  | consFile n s bb r ih => simp [entApp, ih]
  | consDir n sub r ihs ihr => simp [entApp, ihr]

theorem visBytesEnt_entApp (a b : Ent) :
    visBytesEnt (entApp a b) = visBytesEnt a + visBytesEnt b := by
  induction a with
  | nilE => simp [entApp, visBytesEnt]
  | consFile n s bb r ih =>
    simp only [entApp, visBytesEnt, ih]
    omega
  | consDir n sub r ihs ihr => simp [entApp, visBytesEnt, ihr]

theorem SubdirFrame_entApp (rd : String) (pre es : Ent) (rdD : String) (esD : Ent)
    (h : SubdirFrame rd es rdD esD) : SubdirFrame rd (entApp pre es) rdD esD := by
  induction pre with
  | nilE => exact h
  | consFile n s b r ih => exact SubdirFrame.skipFile rd n s b _ rdD esD ih
  | consDir n sub r ihs ihr => exact SubdirFrame.skipDir rd n sub _ rdD esD ihr

theorem mem_flatSegs {ev : BackupProgress}
    {segs : List (BackupProgress ⊕ List BackupProgress)}
    (h : ev ∈ flatSegs segs) :
    ev ∈ ownSegs segs ∨ ∃ bl, Sum.inr bl ∈ segs ∧ ev ∈ bl := by
  induction segs with
  | nil => simp [flatSegs] at h
  | cons sg t ih =>
    cases sg with
    | inl ev2 =>
      rw [flatSegs] at h
      rcases List.mem_cons.mp h with h0 | h1
      · left
        rw [ownSegs]
        exact List.mem_cons.mpr (Or.inl h0)
      · rcases ih h1 with h2 | ⟨bl, hbl, hin⟩
        · left
          rw [ownSegs]
          exact List.mem_cons.mpr (Or.inr h2)
        · exact Or.inr ⟨bl, List.mem_cons.mpr (Or.inr hbl), hin⟩
    | inr bl0 =>
      rw [flatSegs] at h
      rcases List.mem_append.mp h with h0 | h1
      · exact Or.inr ⟨bl0, List.mem_cons.mpr (Or.inl rfl), h0⟩
      · rcases ih h1 with h2 | ⟨bl, hbl, hin⟩
        · left
          rw [ownSegs]
          exact h2
        · exact Or.inr ⟨bl, List.mem_cons.mpr (Or.inr hbl), hin⟩

theorem goEntries_events_decomp (clock : Nat → Nat) (cancel : Nat → Bool) :
    ∀ (es : Ent) (rd ld : String) (depth tf tb : Nat) (thr : ProgressThrottle) (e : Eff)
      (base : Nat) (pre0 full : Ent),
      full = entApp pre0 es → tb = base + visBytesEnt pre0 →
      ∃ segs,
        (goEntries clock cancel rd ld es depth tf tb thr e).2.events
          = e.events ++ flatSegs segs ∧
        (∀ ev ∈ ownSegs segs, inLoopEvt rd full base ev) ∧
        (∀ ev ∈ ownSegs segs, tb ≤ ev.transferred_bytes) ∧
        List.Pairwise (fun a b => a ≤ b)
          ((ownSegs segs).map fun ev => ev.transferred_bytes) ∧
        (∀ bl, Sum.inr bl ∈ segs → ∀ ev ∈ bl,
          ∃ rdD esD, SubdirFrame rd full rdD esD ∧ inLoopEvt rdD esD 0 ev) := by
  intro es
  induction es with
  | nilE =>
    intro rd ld depth tf tb thr e base pre0 full hfull htb
    exact ⟨[], by simp [goEntries, flatSegs], by simp [ownSegs], by simp [ownSegs],
      by simp [ownSegs], by simp⟩
  | consFile name statSize bytes rest ih =>
    intro rd ld depth tf tb thr e base pre0 full hfull htb
    by_cases hcc : cancel e.c = true
    · refine ⟨[], ?_, by simp [ownSegs], by simp [ownSegs], by simp [ownSegs], by simp⟩
      rw [goEntries]
      simp [hcc, flatSegs]
    · rw [Bool.not_eq_true] at hcc
      by_cases hh : startsWithDot name = true
      · obtain ⟨segs, h1, h2, h3, h4, h5⟩ := ih rd ld depth tf tb thr { e with c := e.c + 1 }
          base (entApp pre0 (Ent.consFile name statSize bytes Ent.nilE)) full
          (by rw [hfull, entApp_assoc]; rfl) (by rw [visBytesEnt_entApp]; simp [visBytesEnt, hh]; omega)
        refine ⟨segs, ?_, h2, h3, h4, h5⟩
        conv_lhs => rw [goEntries]
        simpa [hcc, hh] using h1
      · rw [Bool.not_eq_true] at hh
        obtain ⟨segs, h1, h2, h3, h4, h5⟩ := ih rd ld depth (tf + 1) (tb + bytes)
          ((thr.should_update (clock e.k) tb).2)
          (fileStepEff clock rd ld name bytes tf tb thr e)
          base (entApp pre0 (Ent.consFile name statSize bytes Ent.nilE)) full
          (by rw [hfull, entApp_assoc]; rfl) (by rw [visBytesEnt_entApp]; simp [visBytesEnt, hh]; omega)
        rw [fileStepEff_events] at h1
        have hEV : inLoopEvt rd full base (mkEvent "ファイル転送中" tf none tb
            (some (pjoin rd name))
            ((thr.should_update (clock e.k) tb).2.get_elapsed_seconds (clock e.k))) := by
          exact ⟨pre0, name, statSize, bytes, rest, hfull, hh, rfl, rfl,
            by simpa [mkEvent] using htb⟩
        by_cases hsu : (thr.should_update (clock e.k) tb).1 = true
        · rw [if_pos hsu] at h1
          refine ⟨Sum.inl (mkEvent "ファイル転送中" tf none tb (some (pjoin rd name))
            ((thr.should_update (clock e.k) tb).2.get_elapsed_seconds (clock e.k))) :: segs,
            ?_, ?_, ?_, ?_, ?_⟩
          · rw [goEntries_consFile_vis clock cancel rd ld name statSize bytes rest depth
              tf tb thr e hcc hh, h1, flatSegs]
            simp
          · intro ev hev
            rw [ownSegs] at hev
            rcases List.mem_cons.mp hev with h0 | h0
            · rw [h0]
              exact hEV
            · exact h2 ev h0
          · intro ev hev
            rw [ownSegs] at hev
            rcases List.mem_cons.mp hev with h0 | h0
            · rw [h0]
              simp [mkEvent]
            · have := h3 ev h0
              omega
          · rw [ownSegs, List.map_cons, List.pairwise_cons]
            refine ⟨?_, h4⟩
            intro a ha
            obtain ⟨ev, hev, rfl⟩ := List.mem_map.mp ha
            have := h3 ev hev
            simp only [mkEvent]
            omega
          · intro bl hbl ev hev
            rcases List.mem_cons.mp hbl with h0 | h0
            · cases h0
            · exact h5 bl h0 ev hev
        · rw [Bool.not_eq_true] at hsu
          rw [hsu] at h1
          rw [if_neg (by simp)] at h1
          rw [List.append_nil] at h1
          refine ⟨segs, ?_, h2, ?_, h4, h5⟩
          · rw [goEntries_consFile_vis clock cancel rd ld name statSize bytes rest depth
              tf tb thr e hcc hh, h1]
          · intro ev hev
            have := h3 ev hev
            omega
  | consDir name sub rest ihsub ihrest =>
    intro rd ld depth tf tb thr e base pre0 full hfull htb
    by_cases hcc : cancel e.c = true
    · refine ⟨[], ?_, by simp [ownSegs], by simp [ownSegs], by simp [ownSegs], by simp⟩
      rw [goEntries]
      simp [hcc, flatSegs]
    · rw [Bool.not_eq_true] at hcc
      by_cases hh : startsWithDot name = true
      · obtain ⟨segs, h1, h2, h3, h4, h5⟩ := ihrest rd ld depth tf tb thr { e with c := e.c + 1 }
          base (entApp pre0 (Ent.consDir name sub Ent.nilE)) full
          (by rw [hfull, entApp_assoc]; rfl) (by rw [visBytesEnt_entApp]; simp [visBytesEnt]; omega)
        refine ⟨segs, ?_, h2, h3, h4, h5⟩
        conv_lhs => rw [goEntries]
        simpa [hcc, hh] using h1
      · rw [Bool.not_eq_true] at hh
        rw [goEntries]
        simp only [hcc, hh, Bool.false_eq_true, if_false]
        unfold frameEnter
        dsimp only
        by_cases hc2 : cancel (e.c + 1) = true
        · rw [if_pos hc2]
          exact ⟨[], by simp [flatSegs], by simp [ownSegs], by simp [ownSegs],
            by simp [ownSegs], by simp⟩
        · rw [if_neg hc2]
          by_cases hdp : depth + 1 > 50
          · rw [if_pos hdp]
            exact ⟨[], by simp [flatSegs], by simp [ownSegs], by simp [ownSegs],
              by simp [ownSegs], by simp⟩
          · rw [if_neg hdp]
            dsimp only
            obtain ⟨segsC, hC1, hC2, hC3, hC4, hC5⟩ := ihsub (pjoin rd name) (pjoin ld name)
              (depth + 1) 0 0 (ProgressThrottle.new (clock e.k))
              ⟨e.events, e.writes, e.dirs ++ [pjoin ld name], e.k + 1, e.c + 1 + 1⟩
              0 Ent.nilE sub rfl rfl
            have hdeep : ∀ ev ∈ flatSegs segsC,
                ∃ rdD esD, SubdirFrame rd full rdD esD ∧ inLoopEvt rdD esD 0 ev := by
              intro ev hev
              rcases mem_flatSegs hev with hown | ⟨bl, hbl, hin⟩
              · refine ⟨pjoin rd name, sub, ?_, hC2 ev hown⟩
                rw [hfull]
                exact SubdirFrame_entApp rd pre0 _ _ _ (SubdirFrame.enter rd name sub rest)
              · obtain ⟨rdD, esD, hsf, hilo⟩ := hC5 bl hbl ev hin
                refine ⟨rdD, esD, ?_, hilo⟩
                rw [hfull]
                exact SubdirFrame_entApp rd pre0 _ _ _
                  (SubdirFrame.enterDeep rd name sub rest rdD esD hsf)
            split
            · next m e3 heq2 =>
              rw [heq2] at hC1
              refine ⟨[Sum.inr (flatSegs segsC)], ?_, by simp [ownSegs], by simp [ownSegs],
                by simp [ownSegs], ?_⟩
              · simpa [flatSegs] using hC1
              · intro bl hbl ev hev
                have hbl' : bl = flatSegs segsC := by simpa using hbl
                subst hbl'
                exact hdeep ev hev
            · next n0 e3 heq2 =>
              rw [heq2] at hC1
              obtain ⟨segsR, hR1, hR2, hR3, hR4, hR5⟩ := ihrest rd ld depth (tf + n0) tb thr e3
                base (entApp pre0 (Ent.consDir name sub Ent.nilE)) full
                (by rw [hfull, entApp_assoc]; rfl)
                (by rw [visBytesEnt_entApp]; simp [visBytesEnt]; omega)
              refine ⟨Sum.inr (flatSegs segsC) :: segsR, ?_, ?_, ?_, ?_, ?_⟩
              · rw [hR1]
                simp only at hC1
                rw [hC1, flatSegs]
                simp
              · intro ev hev
                exact hR2 ev (by simpa [ownSegs] using hev)
              · intro ev hev
                exact hR3 ev (by simpa [ownSegs] using hev)
              · simpa [ownSegs] using hR4
              · intro bl hbl ev hev
                rcases List.mem_cons.mp hbl with h0 | h0
                · have hbl' : bl = flatSegs segsC := by simpa using h0
                  subst hbl'
                  exact hdeep ev hev
                · exact hR5 bl h0 ev hev

/-- C2 amended: in every invocation — any remote tree, any cancellation
signal stream, any clock — each directory frame's progress events
decompose into the frame's own in-loop events interleaved with the
contiguous event blocks of its child frames; every own event carries a
transferred-bytes value equal to the byte sum of the frame's visible
files completed before the event's current file (bytes of fully
completed files of this frame only, each counted once, no in-flight
bytes), and those values are monotonically non-decreasing in emission
order; every event of a child block is such an in-loop event of a
strictly-deeper frame, so the same property holds of it by this
theorem applied at that frame. Across frames monotonicity fails,
because each recursive call restarts its byte counter at zero and the
final summary events report zero bytes (see the counterexample). -/
theorem C2_frame_bytes_completed_monotone (clock : Nat → Nat) (cancel : Nat → Bool)
    (rd ld : String) (es : Ent) (depth : Nat) (e : Eff) :
    ∃ segs,
      (backup_directory_recursive_with_cancel_and_progress clock cancel rd ld
          es depth e).2.events = e.events ++ flatSegs segs ∧
      (∀ ev ∈ ownSegs segs, inLoopEvt rd es 0 ev) ∧
      List.Pairwise (fun a b => a ≤ b)
        ((ownSegs segs).map fun ev => ev.transferred_bytes) ∧
      (∀ bl, Sum.inr bl ∈ segs → ∀ ev ∈ bl,
        ∃ rdD esD, SubdirFrame rd es rdD esD ∧ inLoopEvt rdD esD 0 ev) := by
  unfold backup_directory_recursive_with_cancel_and_progress frameEnter
  dsimp only
  by_cases hcc : cancel e.c = true
  · rw [if_pos hcc]
    exact ⟨[], by simp [flatSegs], by simp [ownSegs], by simp [ownSegs], by simp⟩
  · rw [if_neg hcc]
    by_cases hdp : depth > 50
    · rw [if_pos hdp]
      exact ⟨[], by simp [flatSegs], by simp [ownSegs], by simp [ownSegs], by simp⟩
    · rw [if_neg hdp]
      dsimp only
      obtain ⟨segs, h1, h2, h3, h4, h5⟩ := goEntries_events_decomp clock cancel es rd ld
        depth 0 0 (ProgressThrottle.new (clock e.k))
        ⟨e.events, e.writes, e.dirs ++ [ld], e.k + 1, e.c + 1⟩ 0 Ent.nilE es rfl rfl
      exact ⟨segs, by simpa using h1, h2, h4, h5⟩
